import Mathlib

/-!
# A shallow embedding of `src/app.js` (the twitter-clone request handlers)

The relational store (`twitterClone.db`) is a record of five row lists, one per
table the handlers query.  Every SQL statement of `app.js` is written out as the
list program it denotes (`FROM`/`JOIN` as nested iteration, `WHERE` as `filter`,
`ORDER BY` as a sort, `LIMIT` as `take`, `GROUP BY` as a partition by key), and
every handler is a function from the store to a response (and a new store for
the three handlers that write).

`bcrypt` and `jsonwebtoken` are libraries; their four entry points used by the
handlers are the fields of `Primitives`.  The keys the store assigns to inserted
rows and the wall clock read by `POST /user/tweets/` are inputs of the request.
-/

namespace TwitterClone

/-! ## Tables -/

/-- Row of table `user`. -/
structure User where
  user_id : Nat
  name : String
  username : String
  password : String
  gender : String
deriving DecidableEq, Repr

/-- Row of table `tweet`. -/
structure Tweet where
  tweet_id : Nat
  tweet : String
  user_id : Nat
  date_time : String
deriving DecidableEq, Repr

/-- Row of table `follower`: `follower_user_id` follows `following_user_id`. -/
structure Follower where
  follower_user_id : Nat
  following_user_id : Nat
deriving DecidableEq, Repr

/-- Row of table `like`. -/
structure Like where
  like_id : Nat
  tweet_id : Nat
  user_id : Nat
deriving DecidableEq, Repr

/-- Row of table `reply`. -/
structure Reply where
  reply_id : Nat
  tweet_id : Nat
  user_id : Nat
  reply : String
deriving DecidableEq, Repr

/-- The database: the rows of each table, in storage order. -/
structure Store where
  user : List User
  tweet : List Tweet
  follower : List Follower
  like : List Like
  reply : List Reply
deriving DecidableEq, Repr

/-! ## Library calls -/

/-- The payload `{userId, username}` that `/login/` signs. -/
structure Claims where
  userId : Nat
  username : String
deriving DecidableEq, Repr

/-- The library entry points the handlers call: `bcrypt.hash(password, 10)`,
`bcrypt.compare(password, hash)`, `jwt.sign(payload, 'YOUR_SECRET_KEY')` and
`jwt.verify(token, 'YOUR_SECRET_KEY', cb)` (`none` when the callback gets `err`). -/
structure Primitives where
  hash : String → String
  compare : String → String → Bool
  sign : Claims → String
  verify : String → Option Claims

/-! ## Responses -/

/-- Row of the feed: `{username, tweet, dateTime}`. -/
structure FeedRow where
  username : String
  tweet : String
  dateTime : String
deriving DecidableEq, Repr

/-- Row `{name}` of the following / followers lists. -/
structure NameRow where
  name : String
deriving DecidableEq, Repr

/-- Object `{tweet, likes, replies, dateTime}`. -/
structure TweetStats where
  tweet : String
  likes : Nat
  replies : Nat
  dateTime : String
deriving DecidableEq, Repr

/-- Object `{name, reply}`. -/
structure ReplyRow where
  name : String
  reply : String
deriving DecidableEq, Repr

/-- What `res.send` is given. -/
inductive Body where
  | text (message : String)
  | jwtToken (token : String)
  | feed (rows : List FeedRow)
  | names (rows : List NameRow)
  | tweet (row : TweetStats)
  | likes (usernames : List String)
  | replies (rows : List ReplyRow)
  | tweets (rows : List TweetStats)
deriving DecidableEq, Repr

/-- An HTTP response: `res.status(status).send(body)`. -/
structure Response where
  status : Nat
  body : Body
deriving DecidableEq, Repr

/-! ## JavaScript and SQL building blocks -/

/-- The JavaScript `length` of a string: its number of UTF-16 code units. -/
def utf16Length (s : String) : Nat :=
  (s.toList.map (fun c => if c.toNat < 65536 then 1 else 2)).sum

/-- The pieces of `cs` between its spaces, as `String.prototype.split(' ')` cuts them
(an empty piece between two adjacent spaces, one piece for a text without space). -/
def splitOnSpace : List Char → List (List Char)
  | [] => [[]]
  | c :: cs =>
    if c = ' ' then [] :: splitOnSpace cs
    else
      match splitOnSpace cs with
      | [] => [[c]]
      | w :: ws => (c :: w) :: ws

/-- The JavaScript `s.split(' ')`. -/
def jsSplit (s : String) : List String :=
  (splitOnSpace s.toList).map String.mk

/-- Comparison of two TEXT values under SQLite's default (binary) collation:
lexicographic, character by character, a proper initial segment first. -/
def textLE : List Char → List Char → Bool
  | [], _ => true
  | _ :: _, [] => false
  | a :: as, b :: bs => decide (a.toNat < b.toNat) || (decide (a.toNat = b.toNat) && textLE as bs)

/-- The order `ORDER BY date_time ASC` sorts by. -/
def dateLE (a b : String) : Prop := textLE a.toList b.toList = true

instance : DecidableRel dateLE := fun a b => inferInstanceAs (Decidable (textLE a.toList b.toList = true))

/-- `xs JOIN ys ON cond`: for every row of `xs`, in order, its matching rows of `ys`. -/
def innerJoin {α β : Type} (xs : List α) (ys : List β) (cond : α → β → Bool) : List (α × β) :=
  xs.flatMap (fun x => (ys.filter (cond x)).map (fun y => (x, y)))

/-- The rows a row `x` contributes to `LEFT JOIN ys`: one per match, or one with
`NULL`s on the right when there is no match. -/
def leftJoinRow {α β : Type} (ys : List β) (cond : α → β → Bool) (x : α) : List (α × Option β) :=
  match ys.filter (cond x) with
  | [] => [(x, none)]
  | y :: rest => (y :: rest).map (fun m => (x, some m))

/-- `xs LEFT JOIN ys ON cond`. -/
def leftJoin {α β : Type} (xs : List α) (ys : List β) (cond : α → β → Bool) : List (α × Option β) :=
  xs.flatMap (leftJoinRow ys cond)

/-- `GROUP BY key`: one group per distinct key, each holding the rows with that key. -/
def groupBy {α κ : Type} [DecidableEq κ] (key : α → κ) (rows : List α) : List (List α) :=
  ((rows.map key).dedup).map (fun k => rows.filter (fun r => decide (key r = k)))

/-- `COUNT(DISTINCT col)` over a group: `col` is `none` where the column is `NULL`. -/
def countDistinct {α κ : Type} [DecidableEq κ] (col : α → Option κ) (group : List α) : Nat :=
  ((group.filterMap col).dedup).length

/-! ## `POST /register/` and `POST /login/` -/

/-- The handler `db.get('SELECT ... FROM user WHERE username = ?')`: the first row with
that username, if any. -/
def findByUsername (s : Store) (username : String) : Option User :=
  s.user.find? (fun u => decide (u.username = username))

/-- Handler of `POST /register/`; `rowid` is the `user_id` the store gives the new row. -/
def register (p : Primitives) (username password name gender : String) (rowid : Nat)
    (s : Store) : Response × Store :=
  match findByUsername s username with
  | some _ => (⟨400, .text "User already exists"⟩, s)
  | none =>
    if utf16Length password < 6 then
      (⟨400, .text "Password is too short"⟩, s)
    else
      (⟨200, .text "User created successfully"⟩,
        { s with user := s.user ++ [⟨rowid, name, username, p.hash password, gender⟩] })

/-- Handler of `POST /login/`. -/
def login (p : Primitives) (username password : String) (s : Store) : Response :=
  match findByUsername s username with
  | none => ⟨400, .text "Invalid user"⟩
  | some user =>
    if p.compare password user.password then
      ⟨200, .jwtToken (p.sign ⟨user.user_id, user.username⟩)⟩
    else
      ⟨400, .text "Invalid password"⟩

/-! ## The middleware -/

/-- The value `authHeader && authHeader.split(' ')[1]`, with `none` for `undefined`
(an absent header, or a header with fewer than two pieces; the empty header, for
which JavaScript yields the falsy `''`, has one piece and is `none` here as well). -/
def headerToken (authHeader : Option String) : Option String :=
  authHeader.bind (fun h => (jsSplit h)[1]?)

/-- The middleware `authenticateToken`, run in front of the handler `next`. -/
def authenticateToken {σ : Type} (p : Primitives) (authHeader : Option String)
    (next : Claims → σ → Response × σ) (s : σ) : Response × σ :=
  match headerToken authHeader with
  | none => (⟨401, .text "Invalid JWT Token"⟩, s)
  | some token =>
    if token = "" then
      (⟨401, .text "Invalid JWT Token"⟩, s)
    else
      match p.verify token with
      | none => (⟨401, .text "Invalid JWT Token"⟩, s)
      | some user => next user s

/-! ## Read handlers -/

/-- The rows of `follower JOIN tweet JOIN user WHERE follower_user_id = ?`. -/
def feedRows (s : Store) (userId : Nat) : List ((Follower × Tweet) × User) :=
  (innerJoin
      (innerJoin s.follower s.tweet (fun f t => decide (f.following_user_id = t.user_id)))
      s.user (fun ft u => decide (ft.2.user_id = u.user_id))).filter
    (fun r => decide (r.1.1.follower_user_id = userId))

/-- The query of `GET /user/tweets/feed/`. -/
def getFeed (s : Store) (userId : Nat) : List FeedRow :=
  (((feedRows s userId).insertionSort
      (fun a b => dateLE a.1.2.date_time b.1.2.date_time)).take 4).map
    (fun r => ⟨r.2.username, r.1.2.tweet, r.1.2.date_time⟩)

/-- The query of `GET /user/following/`. -/
def getFollowing (s : Store) (userId : Nat) : List NameRow :=
  ((innerJoin s.follower s.user (fun f u => decide (f.following_user_id = u.user_id))).filter
    (fun r => decide (r.1.follower_user_id = userId))).map (fun r => ⟨r.2.name⟩)

/-- The query of `GET /user/followers/`. -/
def getFollowers (s : Store) (userId : Nat) : List NameRow :=
  ((innerJoin s.follower s.user (fun f u => decide (f.follower_user_id = u.user_id))).filter
    (fun r => decide (r.1.following_user_id = userId))).map (fun r => ⟨r.2.name⟩)

/-- The subquery `SELECT following_user_id FROM follower WHERE follower_user_id = ?`. -/
def followingIds (s : Store) (userId : Nat) : List Nat :=
  (s.follower.filter (fun f => decide (f.follower_user_id = userId))).map
    (fun f => f.following_user_id)

/-- The guard query shared by the three `/tweets/:tweetId/...` readers:
`db.get('SELECT ... FROM tweet WHERE tweet_id = ? AND user_id IN (subquery)')`. -/
def reachableTweet (s : Store) (userId tweetId : Nat) : Option Tweet :=
  s.tweet.find? (fun t => decide (t.tweet_id = tweetId) && decide (t.user_id ∈ followingIds s userId))

/-- Handler of `GET /tweets/:tweetId/`. -/
def getTweetDetail (s : Store) (userId tweetId : Nat) : Response :=
  match reachableTweet s userId tweetId with
  | none => ⟨401, .text "Invalid Request"⟩
  | some tweet =>
    ⟨200, .tweet
      ⟨tweet.tweet,
        (s.like.filter (fun l => decide (l.tweet_id = tweetId))).length,
        (s.reply.filter (fun r => decide (r.tweet_id = tweetId))).length,
        tweet.date_time⟩⟩

/-- Handler of `GET /tweets/:tweetId/likes/`. -/
def getTweetLikes (s : Store) (userId tweetId : Nat) : Response :=
  match reachableTweet s userId tweetId with
  | none => ⟨401, .text "Invalid Request"⟩
  | some _ =>
    ⟨200, .likes
      (((innerJoin s.like s.user (fun l u => decide (l.user_id = u.user_id))).filter
        (fun r => decide (r.1.tweet_id = tweetId))).map (fun r => r.2.username))⟩

/-- Handler of `GET /tweets/:tweetId/replies/`. -/
def getTweetReplies (s : Store) (userId tweetId : Nat) : Response :=
  match reachableTweet s userId tweetId with
  | none => ⟨401, .text "Invalid Request"⟩
  | some _ =>
    ⟨200, .replies
      (((innerJoin s.reply s.user (fun r u => decide (r.user_id = u.user_id))).filter
        (fun r => decide (r.1.tweet_id = tweetId))).map (fun r => ⟨r.2.name, r.1.reply⟩))⟩

/-- A row of `tweet LEFT JOIN like LEFT JOIN reply`. -/
abbrev OwnRow := (Tweet × Option Like) × Option Reply

/-- The rows of `tweet LEFT JOIN like LEFT JOIN reply WHERE tweet.user_id = ?`. -/
def ownRows (s : Store) (userId : Nat) : List OwnRow :=
  (leftJoin
      (leftJoin s.tweet s.like (fun t l => decide (t.tweet_id = l.tweet_id)))
      s.reply (fun tl r => decide (tl.1.tweet_id = r.tweet_id))).filter
    (fun r => decide (r.1.1.user_id = userId))

/-- The select list of `GET /user/tweets/` over one group: the bare columns are read
from a row of the group (the first), the two counts over the whole group. -/
def ownAggregate (group : List OwnRow) : Option TweetStats :=
  match group with
  | [] => none
  | r :: _ =>
    some ⟨r.1.1.tweet,
      countDistinct (fun x : OwnRow => x.1.2.map (fun l => l.like_id)) group,
      countDistinct (fun x : OwnRow => x.2.map (fun y => y.reply_id)) group,
      r.1.1.date_time⟩

/-- The query of `GET /user/tweets/`. -/
def getOwnTweets (s : Store) (userId : Nat) : List TweetStats :=
  (groupBy (fun r : OwnRow => r.1.1.tweet_id) (ownRows s userId)).filterMap ownAggregate

/-! ## Write handlers -/

/-- Handler of `POST /user/tweets/`; `now` is `format(new Date(), 'yyyy-MM-dd HH:mm:ss')`
and `rowid` the `tweet_id` the store gives the new row. -/
def createTweet (s : Store) (userId : Nat) (tweet now : String) (rowid : Nat) :
    Response × Store :=
  (⟨200, .text "Created a Tweet"⟩, { s with tweet := s.tweet ++ [⟨rowid, tweet, userId, now⟩] })

/-- Handler of `DELETE /tweets/:tweetId/`. -/
def deleteTweet (s : Store) (userId tweetId : Nat) : Response × Store :=
  match s.tweet.find? (fun t => decide (t.tweet_id = tweetId) && decide (t.user_id = userId)) with
  | none => (⟨401, .text "Invalid Request"⟩, s)
  | some _ =>
    (⟨200, .text "Tweet Removed"⟩,
      { s with tweet := s.tweet.filter (fun t => !decide (t.tweet_id = tweetId)) })

/-! ## The application -/

/-- A request to one of the eleven routes.  `auth` is `req.headers['authorization']`,
`tweetId` the key the path parameter `:tweetId` denotes. -/
inductive Request where
  | register (username password name gender : String) (rowid : Nat)
  | login (username password : String)
  | feed (auth : Option String)
  | following (auth : Option String)
  | followers (auth : Option String)
  | tweetDetail (auth : Option String) (tweetId : Nat)
  | tweetLikes (auth : Option String) (tweetId : Nat)
  | tweetReplies (auth : Option String) (tweetId : Nat)
  | ownTweets (auth : Option String)
  | createTweet (auth : Option String) (tweet now : String) (rowid : Nat)
  | deleteTweet (auth : Option String) (tweetId : Nat)

/-- The `Authorization` header of a request to a route wrapped by `authenticateToken`. -/
def Request.auth? : Request → Option (Option String)
  | .register .. => none
  | .login .. => none
  | .feed a => some a
  | .following a => some a
  | .followers a => some a
  | .tweetDetail a _ => some a
  | .tweetLikes a _ => some a
  | .tweetReplies a _ => some a
  | .ownTweets a => some a
  | .createTweet a _ _ _ => some a
  | .deleteTweet a _ => some a

/-- The route table of `app.js`: the response to a request and the store it leaves. -/
def handle (p : Primitives) (req : Request) (s : Store) : Response × Store :=
  match req with
  | .register username password name gender rowid =>
    register p username password name gender rowid s
  | .login username password => (login p username password s, s)
  | .feed a =>
    authenticateToken p a (fun user st => (⟨200, .feed (getFeed st user.userId)⟩, st)) s
  | .following a =>
    authenticateToken p a (fun user st => (⟨200, .names (getFollowing st user.userId)⟩, st)) s
  | .followers a =>
    authenticateToken p a (fun user st => (⟨200, .names (getFollowers st user.userId)⟩, st)) s
  | .tweetDetail a tweetId =>
    authenticateToken p a (fun user st => (getTweetDetail st user.userId tweetId, st)) s
  | .tweetLikes a tweetId =>
    authenticateToken p a (fun user st => (getTweetLikes st user.userId tweetId, st)) s
  | .tweetReplies a tweetId =>
    authenticateToken p a (fun user st => (getTweetReplies st user.userId tweetId, st)) s
  | .ownTweets a =>
    authenticateToken p a (fun user st => (⟨200, .tweets (getOwnTweets st user.userId)⟩, st)) s
  | .createTweet a tweet now rowid =>
    authenticateToken p a (fun user st => createTweet st user.userId tweet now rowid) s
  | .deleteTweet a tweetId =>
    authenticateToken p a (fun user st => deleteTweet st user.userId tweetId) s

/-- The store after a sequence of requests was served. -/
def run (p : Primitives) (reqs : List Request) (s : Store) : Store :=
  reqs.foldl (fun st req => (handle p req st).2) s

/-- The rows one tweet row contributes to `tweet LEFT JOIN like LEFT JOIN reply`. -/
def ownBlock (s : Store) (t : Tweet) : List OwnRow :=
  (leftJoinRow s.like (fun (t : Tweet) (l : Like) => decide (t.tweet_id = l.tweet_id)) t).flatMap
    (leftJoinRow s.reply (fun (tl : Tweet × Option Like) (r : Reply) => decide (tl.1.tweet_id = r.tweet_id)))

/-- The entry of `GET /user/tweets/` the specification gives a tweet row: its text and
timestamp with the numbers of `like` and `reply` rows that carry its `tweet_id`. -/
def ownEntry (s : Store) (t : Tweet) : TweetStats :=
  ⟨t.tweet,
    (s.like.filter (fun l => decide (l.tweet_id = t.tweet_id))).length,
    (s.reply.filter (fun r => decide (r.tweet_id = t.tweet_id))).length,
    t.date_time⟩

/-! ## Predicates of the specification -/

/-- The viewer follows the author: a `follower` row `(viewer, author)` exists. -/
def follows (s : Store) (viewer author : Nat) : Prop :=
  ∃ f ∈ s.follower, f.follower_user_id = viewer ∧ f.following_user_id = author

instance (s : Store) (viewer author : Nat) : Decidable (follows s viewer author) :=
  inferInstanceAs (Decidable (∃ f ∈ s.follower, f.follower_user_id = viewer ∧ f.following_user_id = author))

/-- A reachable tweet: a tweet row with this `tweet_id` whose author the user follows. -/
def reachable (s : Store) (userId tweetId : Nat) : Prop :=
  ∃ t ∈ s.tweet, t.tweet_id = tweetId ∧ follows s userId t.user_id

instance (s : Store) (userId tweetId : Nat) : Decidable (reachable s userId tweetId) :=
  inferInstanceAs (Decidable (∃ t ∈ s.tweet, t.tweet_id = tweetId ∧ follows s userId t.user_id))

/-- The header has the form `Bearer <token>`: the scheme `Bearer`, one space, and a
token that is not empty. -/
def isBearerForm (authHeader : String) : Bool :=
  decide (authHeader.toList.take 7 = "Bearer ".toList) && decide (7 < authHeader.toList.length)

/-- The reference `tweet.user_id → user.user_id` of the data model: the author of every
tweet row has a row in `user`. -/
def fkTweetUser (s : Store) : Prop :=
  ∀ t ∈ s.tweet, ∃ u ∈ s.user, u.user_id = t.user_id

instance (s : Store) : Decidable (fkTweetUser s) :=
  inferInstanceAs (Decidable (∀ t ∈ s.tweet, ∃ u ∈ s.user, u.user_id = t.user_id))

/-! ## Sample data -/

/-- Sample library: a hash that tags the password, and a signer that knows Alice. -/
def demoPrimitives : Primitives where
  hash := fun pw => "$2b$10$" ++ pw
  compare := fun pw h => decide (h = "$2b$10$" ++ pw)
  sign := fun c => if c = ⟨1, "alice1"⟩ then "eyJ.alice1.sig" else "eyJ.other.sig"
  verify := fun t => if t = "eyJ.alice1.sig" then some ⟨1, "alice1"⟩ else none

/-- The empty database. -/
def emptyStore : Store := ⟨[], [], [], [], []⟩

/-- The database after Alice registered with password `secret1`. -/
def aliceStore : Store :=
  { emptyStore with user := [⟨1, "Alice", "alice1", "$2b$10$secret1", "F"⟩] }

/-- Alice has one tweet and follows nobody. -/
def soloStore : Store :=
  { aliceStore with tweet := [⟨1, "hello", 1, "2024-05-01 10:00:00"⟩] }

/-- Alice and Bob; Alice has one tweet, which Bob liked. -/
def likedStore : Store :=
  { user := [⟨1, "Alice", "alice1", "$2b$10$secret1", "F"⟩, ⟨2, "Bob", "bob2", "$2b$10$secret2", "M"⟩],
    tweet := [⟨1, "first", 1, "2024-05-01 10:00:00"⟩],
    follower := [⟨2, 1⟩],
    like := [⟨1, 1, 2⟩],
    reply := [] }

/-- Alice follows Bob and Carol; her tweet 3 has two likes and three replies. -/
def busyStore : Store :=
  { user := [⟨1, "Alice", "alice1", "$2b$10$secret1", "F"⟩, ⟨2, "Bob", "bob2", "$2b$10$secret2", "M"⟩,
      ⟨3, "Carol", "carol3", "$2b$10$secret3", "F"⟩],
    tweet := [⟨1, "old", 2, "2024-01-01 09:00:00"⟩, ⟨2, "new", 3, "2024-06-01 09:00:00"⟩,
      ⟨3, "mine", 1, "2024-06-01 09:00:00"⟩, ⟨4, "quiet", 1, "2024-07-01 09:00:00"⟩],
    follower := [⟨1, 2⟩, ⟨1, 3⟩],
    like := [⟨1, 3, 2⟩, ⟨2, 3, 3⟩],
    reply := [⟨1, 3, 2, "a"⟩, ⟨2, 3, 3, "b"⟩, ⟨3, 3, 3, "c"⟩] }

/-! ## Proofs: lookups and the middleware -/

theorem findByUsername_eq_none (s : Store) (username : String) :
    findByUsername s username = none ↔ ∀ u ∈ s.user, u.username ≠ username := by
  simp [findByUsername, List.find?_eq_none]

theorem findByUsername_of_mem (s : Store) (username : String)
    (h : ∃ u ∈ s.user, u.username = username) :
    ∃ u, findByUsername s username = some u := by
  cases hf : findByUsername s username with
  | some u => exact ⟨u, rfl⟩
  | none =>
    obtain ⟨u, hu, he⟩ := h
    exact absurd he ((findByUsername_eq_none s username).1 hf u hu)

theorem findByUsername_some (s : Store) (username : String) (u : User)
    (h : findByUsername s username = some u) : u ∈ s.user ∧ u.username = username := by
  unfold findByUsername at h
  exact ⟨List.mem_of_find?_eq_some h, by simpa using List.find?_some h⟩

theorem register_of_mem (p : Primitives) (s : Store) (username password name gender : String)
    (rowid : Nat) (h : ∃ u ∈ s.user, u.username = username) :
    register p username password name gender rowid s = (⟨400, .text "User already exists"⟩, s) := by
  obtain ⟨u, hu⟩ := findByUsername_of_mem s username h
  simp [register, hu]

theorem authenticateToken_user {σ : Type} (p : Primitives) (auth : Option String)
    (next : Claims → σ → Response × σ) (s : σ) :
    authenticateToken p auth next s = (⟨401, .text "Invalid JWT Token"⟩, s) ∨
      ∃ user, authenticateToken p auth next s = next user s := by
  unfold authenticateToken
  cases headerToken auth with
  | none => exact Or.inl rfl
  | some token =>
    by_cases ht : token = ""
    · simp [ht]
    · cases hv : p.verify token with
      | none => simp [ht, hv]
      | some user => exact Or.inr ⟨user, by simp [ht, hv]⟩


theorem splitOnSpace_ne_nil (cs : List Char) : splitOnSpace cs ≠ [] := by
  cases cs with
  | nil => simp [splitOnSpace]
  | cons c cs =>
    unfold splitOnSpace
    by_cases hc : c = ' '
    · simp [hc]
    · cases splitOnSpace cs <;> simp [hc]

theorem splitOnSpace_no_space (cs : List Char) (h : ' ' ∉ cs) : splitOnSpace cs = [cs] := by
  induction cs with
  | nil => rfl
  | cons c cs ih =>
    have hc : c ≠ ' ' := fun e => h (by simp [e])
    have hcs : ' ' ∉ cs := fun e => h (List.mem_cons_of_mem _ e)
    simp [splitOnSpace, hc, ih hcs]

theorem headerToken_no_space (h : String) (hs : ' ' ∉ h.toList) : headerToken (some h) = none := by
  have hsp := splitOnSpace_no_space h.toList hs
  simp only [String.toList] at hsp
  simp [headerToken, jsSplit, hsp]

theorem headerToken_bearer (token : String) (hs : ' ' ∉ token.toList) :
    headerToken (some ("Bearer " ++ token)) = some token := by
  have h1 : ("Bearer " ++ token).toList = 'B' :: 'e' :: 'a' :: 'r' :: 'e' :: 'r' :: ' ' :: token.toList := by
    simp [String.toList, String.data_append]
  have hsp := splitOnSpace_no_space token.toList hs
  simp only [String.toList] at hsp h1
  simp [headerToken, jsSplit, h1, splitOnSpace, hsp]

/-- C1 (as stated, refuted): the header `Basic eyJ.alice1.sig` is not of the form
`Bearer <token>`, yet the middleware verifies its second piece and lets the request
through to the handler, which answers 200 with Alice's tweets. -/
theorem authenticateToken_accepts_other_scheme :
    isBearerForm "Basic eyJ.alice1.sig" = false ∧
    demoPrimitives.verify "eyJ.alice1.sig" = some ⟨1, "alice1"⟩ ∧
    handle demoPrimitives (.ownTweets (some "Basic eyJ.alice1.sig")) soloStore =
      (⟨200, .tweets [⟨"hello", 0, 0, "2024-05-01 10:00:00"⟩]⟩, soloStore) := by
  decide

/-- C1 (amended): when the `Authorization` header is absent, or has no second
space-separated piece (in particular when it holds no space), or that piece is
empty, or that piece fails verification, the middleware answers
401 `Invalid JWT Token` whatever handler stands behind it, so the handler is not
run and the store is unchanged; this holds on every route wrapped by it. -/
theorem authenticateToken_rejects (p : Primitives) (auth : Option String)
    (h : auth = none ∨ (∃ hd, auth = some hd ∧ ' ' ∉ hd.toList) ∨ headerToken auth = none ∨
      headerToken auth = some "" ∨ ∃ token, headerToken auth = some token ∧ p.verify token = none) :
    (∀ (σ : Type) (next : Claims → σ → Response × σ) (s : σ),
      authenticateToken p auth next s = (⟨401, .text "Invalid JWT Token"⟩, s)) ∧
    (∀ (req : Request) (s : Store), req.auth? = some auth →
      handle p req s = (⟨401, .text "Invalid JWT Token"⟩, s)) := by
  have key : ∀ (σ : Type) (next : Claims → σ → Response × σ) (s : σ),
      authenticateToken p auth next s = (⟨401, .text "Invalid JWT Token"⟩, s) := by
    intro σ next s
    have h3 : headerToken auth = none ∨ headerToken auth = some "" ∨
        ∃ token, headerToken auth = some token ∧ p.verify token = none := by
      rcases h with h | ⟨hd, h, hs⟩ | h | h | h
      · exact Or.inl (by simp [h, headerToken])
      · exact Or.inl (by rw [h]; exact headerToken_no_space hd hs)
      · exact Or.inl h
      · exact Or.inr (Or.inl h)
      · exact Or.inr (Or.inr h)
    unfold authenticateToken
    rcases h3 with h | h | ⟨token, h, hv⟩
    · simp [h]
    · simp [h]
    · by_cases ht : token = ""
      · simp [h, ht]
      · simp [h, ht, hv]
  refine ⟨key, ?_⟩
  intro req s hreq
  cases req <;> simp [Request.auth?] at hreq <;> subst hreq <;> simp only [handle] <;> exact key _ _ _

/-- C1 (amended), at concrete inputs: the header `Bearer` alone has no token piece. -/
theorem authenticateToken_rejects_witness :
    handle demoPrimitives (.deleteTweet (some "Bearer") 1) soloStore =
      (⟨401, .text "Invalid JWT Token"⟩, soloStore) :=
  (authenticateToken_rejects demoPrimitives (some "Bearer")
    (Or.inr (Or.inl ⟨"Bearer", rfl, by decide⟩))).2 (.deleteTweet (some "Bearer") 1) soloStore rfl


/-! ## Proofs: the tweet-scoped readers -/

theorem mem_followingIds (s : Store) (userId author : Nat) :
    author ∈ followingIds s userId ↔ follows s userId author := by
  simp [followingIds, follows, and_assoc]

theorem reachableTweet_eq_none (s : Store) (userId tweetId : Nat) :
    reachableTweet s userId tweetId = none ↔ ¬ reachable s userId tweetId := by
  simp only [reachableTweet, List.find?_eq_none, reachable]
  constructor
  · rintro h ⟨t, ht, hid, hf⟩
    exact h t ht (by simp [hid, (mem_followingIds s userId t.user_id).2 hf])
  · intro h t ht hp
    simp only [Bool.and_eq_true, decide_eq_true_eq] at hp
    exact h ⟨t, ht, hp.1, (mem_followingIds s userId t.user_id).1 hp.2⟩

theorem reachableTweet_some (s : Store) (userId tweetId : Nat) (t : Tweet)
    (h : reachableTweet s userId tweetId = some t) :
    t ∈ s.tweet ∧ t.tweet_id = tweetId ∧ follows s userId t.user_id := by
  unfold reachableTweet at h
  have hp := List.find?_some h
  simp only [Bool.and_eq_true, decide_eq_true_eq] at hp
  exact ⟨List.mem_of_find?_eq_some h, hp.1, (mem_followingIds s userId t.user_id).1 hp.2⟩

/-- C2: each of the three tweet-scoped readers answers 200 exactly when a tweet row
with that `tweet_id` exists whose author the user follows, and answers
401 `Invalid Request` otherwise, in particular when tweet rows with that `tweet_id`
exist but none of their authors is followed by the user. -/
theorem tweet_readers_status (s : Store) (userId tweetId : Nat) :
    ((getTweetDetail s userId tweetId).status = 200 ↔ reachable s userId tweetId) ∧
    ((getTweetLikes s userId tweetId).status = 200 ↔ reachable s userId tweetId) ∧
    ((getTweetReplies s userId tweetId).status = 200 ↔ reachable s userId tweetId) ∧
    (¬ reachable s userId tweetId →
      getTweetDetail s userId tweetId = ⟨401, .text "Invalid Request"⟩ ∧
      getTweetLikes s userId tweetId = ⟨401, .text "Invalid Request"⟩ ∧
      getTweetReplies s userId tweetId = ⟨401, .text "Invalid Request"⟩) ∧
    ((∃ t ∈ s.tweet, t.tweet_id = tweetId) →
      (∀ t ∈ s.tweet, t.tweet_id = tweetId → ¬ follows s userId t.user_id) →
      getTweetDetail s userId tweetId = ⟨401, .text "Invalid Request"⟩ ∧
      getTweetLikes s userId tweetId = ⟨401, .text "Invalid Request"⟩ ∧
      getTweetReplies s userId tweetId = ⟨401, .text "Invalid Request"⟩) := by
  have hnone : ¬ reachable s userId tweetId →
      getTweetDetail s userId tweetId = ⟨401, .text "Invalid Request"⟩ ∧
      getTweetLikes s userId tweetId = ⟨401, .text "Invalid Request"⟩ ∧
      getTweetReplies s userId tweetId = ⟨401, .text "Invalid Request"⟩ := by
    intro h
    have h0 := (reachableTweet_eq_none s userId tweetId).2 h
    simp [getTweetDetail, getTweetLikes, getTweetReplies, h0]
  have hsome : reachable s userId tweetId →
      (getTweetDetail s userId tweetId).status = 200 ∧
      (getTweetLikes s userId tweetId).status = 200 ∧
      (getTweetReplies s userId tweetId).status = 200 := by
    intro h
    cases h0 : reachableTweet s userId tweetId with
    | none => exact absurd h ((reachableTweet_eq_none s userId tweetId).1 h0)
    | some t => simp [getTweetDetail, getTweetLikes, getTweetReplies, h0]
  refine ⟨⟨fun h => ?_, fun h => (hsome h).1⟩, ⟨fun h => ?_, fun h => (hsome h).2.1⟩,
    ⟨fun h => ?_, fun h => (hsome h).2.2⟩, hnone, ?_⟩
  · by_contra hr
    rw [(hnone hr).1] at h
    simp at h
  · by_contra hr
    rw [(hnone hr).2.1] at h
    simp at h
  · by_contra hr
    rw [(hnone hr).2.2] at h
    simp at h
  · rintro _ hall
    exact hnone (fun ⟨t, ht, hid, hf⟩ => hall t ht hid hf)

/-- C2, at concrete inputs: Bob follows Alice and reads her tweet 1; Alice does not
follow herself and is refused on the same tweet. -/
theorem tweet_readers_status_witness :
    getTweetDetail likedStore 2 1 = ⟨200, .tweet ⟨"first", 1, 0, "2024-05-01 10:00:00"⟩⟩ ∧
    getTweetLikes likedStore 2 1 = ⟨200, .likes ["bob2"]⟩ ∧
    getTweetDetail likedStore 1 1 = ⟨401, .text "Invalid Request"⟩ ∧
    getTweetReplies likedStore 1 1 = ⟨401, .text "Invalid Request"⟩ :=
  ⟨by decide, by decide,
    ((tweet_readers_status likedStore 1 1).2.2.2.1 (by decide)).1,
    ((tweet_readers_status likedStore 1 1).2.2.2.1 (by decide)).2.2⟩

/-! ## Proofs: registration and login -/

/-- C6 (as stated, refuted): with the username `alice1` already registered, a
registration with the five-character password `abcde` is refused as a duplicate,
not as a weak password. -/
theorem register_short_password_duplicate :
    utf16Length "abcde" < 6 ∧
    register demoPrimitives "alice1" "abcde" "Alice" "F" 2 aliceStore =
      (⟨400, .text "User already exists"⟩, aliceStore) ∧
    (register demoPrimitives "alice1" "abcde" "Alice" "F" 2 aliceStore).1 ≠
      ⟨400, .text "Password is too short"⟩ := by
  decide

/-- C6 (amended): a registration whose password has fewer than 6 UTF-16 code units
is answered 400 and leaves the store unchanged, whatever the other fields; the
message is `Password is too short` when no user row has that username, and
`User already exists` when one has. -/
theorem register_short_password (p : Primitives) (s : Store)
    (username password name gender : String) (rowid : Nat)
    (hlen : utf16Length password < 6) :
    (register p username password name gender rowid s).1.status = 400 ∧
    (register p username password name gender rowid s).2 = s ∧
    ((∀ u ∈ s.user, u.username ≠ username) →
      register p username password name gender rowid s =
        (⟨400, .text "Password is too short"⟩, s)) ∧
    ((∃ u ∈ s.user, u.username = username) →
      register p username password name gender rowid s =
        (⟨400, .text "User already exists"⟩, s)) := by
  have hfree : (∀ u ∈ s.user, u.username ≠ username) →
      register p username password name gender rowid s =
        (⟨400, .text "Password is too short"⟩, s) := by
    intro h
    simp [register, (findByUsername_eq_none s username).2 h, hlen]
  have htaken := register_of_mem p s username password name gender rowid
  by_cases h : ∃ u ∈ s.user, u.username = username
  · exact ⟨by rw [htaken h], by rw [htaken h], hfree, htaken⟩
  · have h' : ∀ u ∈ s.user, u.username ≠ username := fun u hu he => h ⟨u, hu, he⟩
    exact ⟨by rw [hfree h'], by rw [hfree h'], hfree, htaken⟩

/-- C6 (amended), at concrete inputs: a fresh username with the password `abcde`. -/
theorem register_short_password_witness :
    register demoPrimitives "bob2" "abcde" "Bob" "M" 2 aliceStore =
      (⟨400, .text "Password is too short"⟩, aliceStore) :=
  (register_short_password demoPrimitives aliceStore "bob2" "abcde" "Bob" "M" 2
    (by decide)).2.2.1 (by decide)

theorem handle_user_mono (p : Primitives) (req : Request) (s : Store) (u : User)
    (hu : u ∈ s.user) : u ∈ (handle p req s).2.user := by
  have hauth : ∀ (next : Claims → Store → Response × Store),
      (∀ c st, u ∈ st.user → u ∈ (next c st).2.user) →
      ∀ a, u ∈ (authenticateToken p a next s).2.user := by
    intro next hnext a
    rcases authenticateToken_user p a next s with h | ⟨c, h⟩
    · rw [h]; exact hu
    · rw [h]; exact hnext c s hu
  cases req with
  | register username password name gender rowid =>
    simp only [handle, register]
    cases findByUsername s username with
    | some _ => exact hu
    | none =>
      by_cases hl : utf16Length password < 6
      · simp [hl, hu]
      · simp [hl, hu]
  | login username password => exact hu
  | feed a => exact hauth _ (fun _ _ h => h) a
  | following a => exact hauth _ (fun _ _ h => h) a
  | followers a => exact hauth _ (fun _ _ h => h) a
  | tweetDetail a tweetId => exact hauth _ (fun _ _ h => h) a
  | tweetLikes a tweetId => exact hauth _ (fun _ _ h => h) a
  | tweetReplies a tweetId => exact hauth _ (fun _ _ h => h) a
  | ownTweets a => exact hauth _ (fun _ _ h => h) a
  | createTweet a tweet now rowid => exact hauth _ (fun _ _ h => h) a
  | deleteTweet a tweetId =>
    refine hauth _ (fun c st h => ?_) a
    simp only [deleteTweet]
    cases st.tweet.find? _ <;> exact h

theorem run_user_mono (p : Primitives) (reqs : List Request) (s : Store) (u : User)
    (hu : u ∈ s.user) : u ∈ (run p reqs s).user := by
  induction reqs generalizing s with
  | nil => exact hu
  | cons r rs ih => exact ih _ (handle_user_mono p r s u hu)

theorem handle_user_shape (p : Primitives) (req : Request) (s : Store) :
    (handle p req s).2.user = s.user ∨
      ∃ row : User, findByUsername s row.username = none ∧
        (handle p req s).2.user = s.user ++ [row] := by
  have hauth : ∀ (next : Claims → Store → Response × Store),
      (∀ c st, (next c st).2.user = st.user) →
      ∀ a, (authenticateToken p a next s).2.user = s.user := by
    intro next hnext a
    rcases authenticateToken_user p a next s with h | ⟨c, h⟩
    · rw [h]
    · rw [h]; exact hnext c s
  cases req with
  | register username password name gender rowid =>
    simp only [handle, register]
    cases hf : findByUsername s username with
    | some _ => exact Or.inl rfl
    | none =>
      by_cases hl : utf16Length password < 6
      · simp [hl]
      · exact Or.inr ⟨⟨rowid, name, username, p.hash password, gender⟩, hf, by simp [hl]⟩
  | login username password => exact Or.inl rfl
  | feed a => exact Or.inl (hauth _ (fun _ _ => rfl) a)
  | following a => exact Or.inl (hauth _ (fun _ _ => rfl) a)
  | followers a => exact Or.inl (hauth _ (fun _ _ => rfl) a)
  | tweetDetail a tweetId => exact Or.inl (hauth _ (fun _ _ => rfl) a)
  | tweetLikes a tweetId => exact Or.inl (hauth _ (fun _ _ => rfl) a)
  | tweetReplies a tweetId => exact Or.inl (hauth _ (fun _ _ => rfl) a)
  | ownTweets a => exact Or.inl (hauth _ (fun _ _ => rfl) a)
  | createTweet a tweet now rowid => exact Or.inl (hauth _ (fun _ _ => rfl) a)
  | deleteTweet a tweetId =>
    refine Or.inl (hauth _ (fun c st => ?_) a)
    simp only [deleteTweet]
    cases st.tweet.find? _ <;> rfl

theorem handle_findByUsername (p : Primitives) (req : Request) (s : Store)
    (username : String) (x : User) (h : findByUsername s username = some x) :
    findByUsername (handle p req s).2 username = some x := by
  unfold findByUsername at h ⊢
  rcases handle_user_shape p req s with hs | ⟨row, _, hs⟩
  · rw [hs]; exact h
  · rw [hs, List.find?_append, h]; rfl

theorem run_findByUsername (p : Primitives) (reqs : List Request) (s : Store)
    (username : String) (x : User) (h : findByUsername s username = some x) :
    findByUsername (run p reqs s) username = some x := by
  induction reqs generalizing s with
  | nil => exact h
  | cons r rs ih => exact ih _ (handle_findByUsername p r s username x h)

/-- After a registration has succeeded, and whatever requests were served since, the
username lookup of `/login/` returns the row that registration inserted: the
`user_id` the store gave it, the submitted name, username and gender, and the hash of
the submitted password. -/
theorem register_then_findByUsername (p : Primitives) (s : Store)
    (username password name gender : String) (rowid : Nat) (later : List Request)
    (hok : (register p username password name gender rowid s).1 =
      ⟨200, .text "User created successfully"⟩) :
    findByUsername (run p later (register p username password name gender rowid s).2) username =
      some ⟨rowid, name, username, p.hash password, gender⟩ := by
  apply run_findByUsername
  revert hok
  simp only [register]
  cases hf : findByUsername s username with
  | some _ => simp
  | none =>
    by_cases hl : utf16Length password < 6
    · simp [hl]
    · intro _
      unfold findByUsername at hf ⊢
      simp [hl, List.find?_append, hf]

/-- After Alice registered on the empty database and logged in, the lookup of `alice1`
returns her row. -/
theorem register_then_findByUsername_witness :
    findByUsername
        (run demoPrimitives [.login "alice1" "secret1"]
          (register demoPrimitives "alice1" "secret1" "Alice" "F" 1 emptyStore).2) "alice1" =
      some ⟨1, "Alice", "alice1", "$2b$10$secret1", "F"⟩ :=
  register_then_findByUsername demoPrimitives emptyStore "alice1" "secret1" "Alice" "F" 1
    [.login "alice1" "secret1"] (by decide)

/-- C7: `/register/` answers 400 `User already exists` and leaves the store
unchanged whenever a user row with that username exists; hence once a
registration of a username has succeeded, every later registration of the same
username (after any sequence of requests to the application, with any name,
password and gender) is refused in that way. -/
theorem register_duplicate (p : Primitives) (s : Store)
    (username password name gender : String) (rowid : Nat)
    (hok : (register p username password name gender rowid s).1 =
      ⟨200, .text "User created successfully"⟩) :
    (∀ (later : List Request) (password2 name2 gender2 : String) (rowid2 : Nat),
      register p username password2 name2 gender2 rowid2
          (run p later (register p username password name gender rowid s).2) =
        (⟨400, .text "User already exists"⟩,
          run p later (register p username password name gender rowid s).2)) ∧
    (∀ (st : Store) (password2 name2 gender2 : String) (rowid2 : Nat),
      (∃ u ∈ st.user, u.username = username) →
      register p username password2 name2 gender2 rowid2 st =
        (⟨400, .text "User already exists"⟩, st)) := by
  refine ⟨?_, fun st password2 name2 gender2 rowid2 h =>
    register_of_mem p st username password2 name2 gender2 rowid2 h⟩
  intro later password2 name2 gender2 rowid2
  apply register_of_mem
  refine ⟨⟨rowid, name, username, p.hash password, gender⟩, run_user_mono p later _ _ ?_, rfl⟩
  revert hok
  simp only [register]
  cases findByUsername s username with
  | some _ => simp
  | none =>
    by_cases hl : utf16Length password < 6
    · simp [hl]
    · simp [hl]

/-- C7, at concrete inputs: Alice registers on the empty database; after a login and
a tweet of hers, a second registration of `alice1` is refused. -/
theorem register_duplicate_witness :
    register demoPrimitives "alice1" "another-password" "Alicia" "F" 2
        (run demoPrimitives
          [.login "alice1" "secret1",
           .createTweet (some "Bearer eyJ.alice1.sig") "hello" "2024-05-01 10:00:00" 1]
          (register demoPrimitives "alice1" "secret1" "Alice" "F" 1 emptyStore).2) =
      (⟨400, .text "User already exists"⟩,
        run demoPrimitives
          [.login "alice1" "secret1",
           .createTweet (some "Bearer eyJ.alice1.sig") "hello" "2024-05-01 10:00:00" 1]
          (register demoPrimitives "alice1" "secret1" "Alice" "F" 1 emptyStore).2) :=
  (register_duplicate demoPrimitives emptyStore "alice1" "secret1" "Alice" "F" 1
    (by decide)).1 _ "another-password" "Alicia" "F" 2


/-- C8: let `user` be the row the username lookup finds, let `password` be the
password whose hash the row stores, and let the libraries keep their contracts on
these data (`compare` accepts the password against its hash, `verify` returns the
signed payload, a signed token is a non-empty text without space).  Then a login
with a password the stored hash rejects is answered 400 without a token; a login
with `password` is answered 200 with a token which `authenticateToken`, given
`Bearer <token>`, accepts, running the handler with that row's `user_id` as `userId`
and its `username`; and a login with a username no row has is answered 400. -/
theorem login_token_round_trip (p : Primitives) (s : Store) (user : User) (password : String)
    (hreg : findByUsername s user.username = some user)
    (hpw : user.password = p.hash password)
    (hcmp : p.compare password (p.hash password) = true)
    (hver : p.verify (p.sign ⟨user.user_id, user.username⟩) = some ⟨user.user_id, user.username⟩)
    (hfmt : p.sign ⟨user.user_id, user.username⟩ ≠ "" ∧
      ' ' ∉ (p.sign ⟨user.user_id, user.username⟩).toList) :
    (∀ wrong : String, p.compare wrong user.password = false →
      login p user.username wrong s = ⟨400, .text "Invalid password"⟩) ∧
    login p user.username password s =
      ⟨200, .jwtToken (p.sign ⟨user.user_id, user.username⟩)⟩ ∧
    (∀ (σ : Type) (next : Claims → σ → Response × σ) (st : σ),
      authenticateToken p (some ("Bearer " ++ p.sign ⟨user.user_id, user.username⟩)) next st =
        next ⟨user.user_id, user.username⟩ st) ∧
    (∀ (st : Store) (unknown anyPassword : String),
      (∀ u ∈ st.user, u.username ≠ unknown) →
      login p unknown anyPassword st = ⟨400, .text "Invalid user"⟩) := by
  refine ⟨?_, ?_, ?_, ?_⟩
  · intro wrong hw
    simp [login, hreg, hw]
  · simp [login, hreg, hpw, hcmp]
  · intro σ next st
    simp [authenticateToken, headerToken_bearer _ hfmt.2, hfmt.1, hver]
  · intro st unknown anyPassword h
    simp [login, (findByUsername_eq_none st unknown).2 h]

/-- C8, at concrete inputs: Alice, registered with `secret1`, logs in and presents her
token to `GET /user/tweets/`; the password `secret2` is refused. -/
theorem login_token_round_trip_witness :
    login demoPrimitives "alice1" "secret2" soloStore = ⟨400, .text "Invalid password"⟩ ∧
    login demoPrimitives "alice1" "secret1" soloStore = ⟨200, .jwtToken "eyJ.alice1.sig"⟩ ∧
    handle demoPrimitives (.ownTweets (some "Bearer eyJ.alice1.sig")) soloStore =
      (⟨200, .tweets (getOwnTweets soloStore 1)⟩, soloStore) :=
  have h := login_token_round_trip demoPrimitives soloStore
    ⟨1, "Alice", "alice1", "$2b$10$secret1", "F"⟩ "secret1"
    (by decide) (by decide) (by decide) (by decide) (by decide)
  ⟨h.1 "secret2" (by decide), h.2.1,
    h.2.2.1 Store (fun user st => (⟨200, .tweets (getOwnTweets st user.userId)⟩, st)) soloStore⟩


/-! ## Proofs: the joins and the grouping of `GET /user/tweets/` -/

theorem mem_leftJoinRow {α β : Type} (ys : List β) (c : α → β → Bool) (x : α)
    (r : α × Option β) :
    r ∈ leftJoinRow ys c x ↔
      r.1 = x ∧ ((r.2 = none ∧ ys.filter (c x) = []) ∨ ∃ y ∈ ys.filter (c x), r.2 = some y) := by
  obtain ⟨a, o⟩ := r
  unfold leftJoinRow
  cases h : ys.filter (c x) with
  | nil => simp
  | cons y rest =>
    simp only [List.mem_map, Prod.mk.injEq]
    constructor
    · rintro ⟨m, hm, rfl, rfl⟩
      exact ⟨rfl, Or.inr ⟨m, hm, rfl⟩⟩
    · rintro ⟨rfl, h2 | ⟨m, hm, rfl⟩⟩
      · exact absurd h2.2 (by simp)
      · exact ⟨m, hm, rfl, rfl⟩

theorem leftJoinRow_ne_nil {α β : Type} (ys : List β) (c : α → β → Bool) (x : α) :
    leftJoinRow ys c x ≠ [] := by
  unfold leftJoinRow
  cases ys.filter (c x) <;> simp

theorem exists_mem_of_ne_nil {α : Type} (l : List α) (h : l ≠ []) : ∃ a, a ∈ l := by
  cases l with
  | nil => exact absurd rfl h
  | cons a _ => exact ⟨a, List.mem_cons_self _ _⟩

theorem mem_ownBlock (s : Store) (t : Tweet) (r : OwnRow) :
    r ∈ ownBlock s t ↔
      r.1.1 = t ∧
      ((r.1.2 = none ∧ s.like.filter (fun l => decide (t.tweet_id = l.tweet_id)) = []) ∨
        ∃ l ∈ s.like.filter (fun l => decide (t.tweet_id = l.tweet_id)), r.1.2 = some l) ∧
      ((r.2 = none ∧ s.reply.filter (fun y => decide (t.tweet_id = y.tweet_id)) = []) ∨
        ∃ y ∈ s.reply.filter (fun y => decide (t.tweet_id = y.tweet_id)), r.2 = some y) := by
  simp only [ownBlock, List.mem_flatMap, mem_leftJoinRow]
  constructor
  · rintro ⟨tl, ⟨h1, h2⟩, h3, h4⟩
    rw [h3, h1]
    rw [h1] at h4
    exact ⟨rfl, h2, h4⟩
  · rintro ⟨h1, h2, h3⟩
    exact ⟨r.1, ⟨h1, h2⟩, rfl, by rw [h1]; exact h3⟩

theorem ownBlock_ne_nil (s : Store) (t : Tweet) : ownBlock s t ≠ [] := by
  obtain ⟨tl, htl⟩ := exists_mem_of_ne_nil _ (leftJoinRow_ne_nil s.like
    (fun (t : Tweet) (l : Like) => decide (t.tweet_id = l.tweet_id)) t)
  obtain ⟨r, hr⟩ := exists_mem_of_ne_nil _ (leftJoinRow_ne_nil s.reply
    (fun (tl : Tweet × Option Like) (r : Reply) => decide (tl.1.tweet_id = r.tweet_id)) tl)
  intro h
  have : r ∈ ownBlock s t := List.mem_flatMap.2 ⟨tl, htl, hr⟩
  rw [h] at this
  exact absurd this (List.not_mem_nil _)

theorem filter_flatMap_key {α β : Type} (l : List α) (B : α → List β) (q : β → Bool)
    (k : α → Bool) (h : ∀ x, ∀ r ∈ B x, q r = k x) :
    (l.flatMap B).filter q = (l.filter k).flatMap B := by
  induction l with
  | nil => rfl
  | cons x xs ih =>
    rw [List.flatMap_cons, List.filter_append, ih]
    by_cases hk : k x = true
    · have : (B x).filter q = B x := List.filter_eq_self.2 (fun r hr => by rw [h x r hr, hk])
      rw [this, List.filter_cons_of_pos hk, List.flatMap_cons]
    · have : (B x).filter q = [] := List.filter_eq_nil_iff.2 (fun r hr => by rw [h x r hr]; exact hk)
      rw [this, List.filter_cons_of_neg hk, List.nil_append]

theorem ownRows_eq (s : Store) (userId : Nat) :
    ownRows s userId =
      (s.tweet.filter (fun t => decide (t.user_id = userId))).flatMap (ownBlock s) := by
  unfold ownRows leftJoin
  rw [List.flatMap_assoc]
  exact filter_flatMap_key s.tweet (ownBlock s) _ _
    (fun t r hr => by rw [((mem_ownBlock s t r).1 hr).1])

theorem ownRows_filter_key (s : Store) (userId k : Nat) :
    (ownRows s userId).filter (fun r => decide (r.1.1.tweet_id = k)) =
      ((s.tweet.filter (fun t => decide (t.user_id = userId))).filter
        (fun t => decide (t.tweet_id = k))).flatMap (ownBlock s) := by
  rw [ownRows_eq]
  exact filter_flatMap_key _ (ownBlock s) _ _
    (fun t r hr => by rw [((mem_ownBlock s t r).1 hr).1])

theorem getOwnTweets_eq (s : Store) (userId : Nat) :
    getOwnTweets s userId =
      (((ownRows s userId).map (fun r => r.1.1.tweet_id)).dedup).filterMap
        (fun k => ownAggregate (((s.tweet.filter (fun t => decide (t.user_id = userId))).filter
          (fun t => decide (t.tweet_id = k))).flatMap (ownBlock s))) := by
  unfold getOwnTweets groupBy
  rw [List.filterMap_map]
  apply List.filterMap_congr
  intro k _
  simp only [Function.comp]
  rw [ownRows_filter_key]

theorem mem_ownKeys (s : Store) (userId k : Nat) :
    k ∈ ((ownRows s userId).map (fun r => r.1.1.tweet_id)).dedup ↔
      ∃ t ∈ s.tweet, t.user_id = userId ∧ t.tweet_id = k := by
  rw [List.mem_dedup, ownRows_eq]
  simp only [List.mem_map, List.mem_flatMap, List.mem_filter, decide_eq_true_eq]
  constructor
  · rintro ⟨r, ⟨t, ⟨ht, hu⟩, hr⟩, hk⟩
    have := ((mem_ownBlock s t r).1 hr).1
    exact ⟨t, ht, hu, by rw [← this]; exact hk⟩
  · rintro ⟨t, ht, hu, hk⟩
    obtain ⟨r, hr⟩ := exists_mem_of_ne_nil _ (ownBlock_ne_nil s t)
    exact ⟨r, ⟨t, ⟨ht, hu⟩, hr⟩, by rw [((mem_ownBlock s t r).1 hr).1]; exact hk⟩

/-- Every entry of `GET /user/tweets/` shows the text and timestamp of a tweet row of
the user. -/
theorem getOwnTweets_source (s : Store) (userId : Nat) (e : TweetStats)
    (he : e ∈ getOwnTweets s userId) :
    ∃ t ∈ s.tweet, t.user_id = userId ∧ e.tweet = t.tweet ∧ e.dateTime = t.date_time := by
  rw [getOwnTweets_eq] at he
  obtain ⟨k, _, hk⟩ := List.mem_filterMap.1 he
  generalize hg : ((s.tweet.filter (fun t => decide (t.user_id = userId))).filter
          (fun t => decide (t.tweet_id = k))).flatMap (ownBlock s) = g at hk
  cases g with
  | nil => simp [ownAggregate] at hk
  | cons r rest =>
    have hr : r ∈ ((s.tweet.filter (fun t => decide (t.user_id = userId))).filter
          (fun t => decide (t.tweet_id = k))).flatMap (ownBlock s) := by
      rw [hg]; exact List.mem_cons_self _ _
    obtain ⟨t, ht, hrt⟩ := List.mem_flatMap.1 hr
    simp only [List.mem_filter, decide_eq_true_eq] at ht
    have h1 := ((mem_ownBlock s t r).1 hrt).1
    simp only [ownAggregate, Option.some.injEq] at hk
    subst hk
    exact ⟨t, ht.1.1, ht.1.2, by simp [h1], by simp [h1]⟩


theorem ownBlock_likes (s : Store) (t : Tweet) (hl : (s.like.map (fun l => l.like_id)).Nodup) :
    countDistinct (fun x : OwnRow => x.1.2.map (fun l => l.like_id)) (ownBlock s t) =
      (s.like.filter (fun l => decide (l.tweet_id = t.tweet_id))).length := by
  have hflip : s.like.filter (fun l => decide (l.tweet_id = t.tweet_id)) =
      s.like.filter (fun l => decide (t.tweet_id = l.tweet_id)) :=
    List.filter_congr (fun l _ => by simp [eq_comm])
  have hnd : ((s.like.filter (fun l => decide (t.tweet_id = l.tweet_id))).map
      (fun l => l.like_id)).Nodup :=
    List.Nodup.sublist ((List.filter_sublist s.like).map _) hl
  unfold countDistinct
  rw [hflip, ← List.card_toFinset, ← List.length_map _ (fun l : Like => l.like_id),
    ← List.toFinset_card_of_nodup hnd]
  congr 1
  ext x
  simp only [List.mem_toFinset, List.mem_filterMap, List.mem_map, Option.map_eq_some']
  constructor
  · rintro ⟨r, hr, l, hrl, hx⟩
    rcases ((mem_ownBlock s t r).1 hr).2.1 with ⟨h0, _⟩ | ⟨m, hm, hsome⟩
    · rw [h0] at hrl; exact absurd hrl (by simp)
    · rw [hsome] at hrl
      have hml : m = l := Option.some.inj hrl
      rw [hml] at hm
      exact ⟨l, hm, hx⟩
  · rintro ⟨l, hlm, hx⟩
    obtain ⟨r, hr⟩ := exists_mem_of_ne_nil _ (leftJoinRow_ne_nil s.reply
      (fun (tl : Tweet × Option Like) (r : Reply) => decide (tl.1.tweet_id = r.tweet_id))
      (t, some l))
    have hr1 := ((mem_leftJoinRow _ _ _ r).1 hr).1
    refine ⟨r, ?_, l, by rw [hr1], hx⟩
    refine List.mem_flatMap.2 ⟨(t, some l), ?_, hr⟩
    exact (mem_leftJoinRow _ _ _ _).2 ⟨rfl, Or.inr ⟨l, hlm, rfl⟩⟩

theorem ownBlock_replies (s : Store) (t : Tweet)
    (hr : (s.reply.map (fun y => y.reply_id)).Nodup) :
    countDistinct (fun x : OwnRow => x.2.map (fun y => y.reply_id)) (ownBlock s t) =
      (s.reply.filter (fun y => decide (y.tweet_id = t.tweet_id))).length := by
  have hflip : s.reply.filter (fun y => decide (y.tweet_id = t.tweet_id)) =
      s.reply.filter (fun y => decide (t.tweet_id = y.tweet_id)) :=
    List.filter_congr (fun y _ => by simp [eq_comm])
  have hnd : ((s.reply.filter (fun y => decide (t.tweet_id = y.tweet_id))).map
      (fun y => y.reply_id)).Nodup :=
    List.Nodup.sublist ((List.filter_sublist s.reply).map _) hr
  unfold countDistinct
  rw [hflip, ← List.card_toFinset, ← List.length_map _ (fun y : Reply => y.reply_id),
    ← List.toFinset_card_of_nodup hnd]
  congr 1
  ext x
  simp only [List.mem_toFinset, List.mem_filterMap, List.mem_map, Option.map_eq_some']
  constructor
  · rintro ⟨r, hrm, y, hry, hx⟩
    rcases ((mem_ownBlock s t r).1 hrm).2.2 with ⟨h0, _⟩ | ⟨m, hm, hsome⟩
    · rw [h0] at hry; exact absurd hry (by simp)
    · rw [hsome] at hry
      have hmy : m = y := Option.some.inj hry
      rw [hmy] at hm
      exact ⟨y, hm, hx⟩
  · rintro ⟨y, hym, hx⟩
    obtain ⟨tl, htl⟩ := exists_mem_of_ne_nil _ (leftJoinRow_ne_nil s.like
      (fun (t : Tweet) (l : Like) => decide (t.tweet_id = l.tweet_id)) t)
    have h1 := ((mem_leftJoinRow _ _ _ tl).1 htl).1
    refine ⟨(tl, some y), ?_, y, rfl, hx⟩
    refine List.mem_flatMap.2 ⟨tl, htl, ?_⟩
    exact (mem_leftJoinRow _ _ _ _).2 ⟨rfl, Or.inr ⟨y, by rw [h1]; exact hym, rfl⟩⟩

theorem ownAggregate_ownBlock (s : Store) (t : Tweet)
    (hl : (s.like.map (fun l => l.like_id)).Nodup)
    (hr : (s.reply.map (fun y => y.reply_id)).Nodup) :
    ownAggregate (ownBlock s t) = some (ownEntry s t) := by
  have h1 := ownBlock_likes s t hl
  have h2 := ownBlock_replies s t hr
  cases hb : ownBlock s t with
  | nil => exact absurd hb (ownBlock_ne_nil s t)
  | cons r rest =>
    have hrt : r.1.1 = t :=
      ((mem_ownBlock s t r).1 (by rw [hb]; exact List.mem_cons_self _ _)).1
    rw [hb] at h1 h2
    simp only [ownAggregate, ownEntry, h1, h2, hrt]

theorem filter_key_eq_singleton {α : Type} (f : α → Nat) (l : List α) (t : α)
    (hnd : (l.map f).Nodup) (ht : t ∈ l) :
    l.filter (fun x => decide (f x = f t)) = [t] := by
  induction l with
  | nil => exact absurd ht (List.not_mem_nil _)
  | cons x xs ih =>
    rw [List.map_cons, List.nodup_cons] at hnd
    rcases List.mem_cons.1 ht with rfl | hmem
    · have : xs.filter (fun x => decide (f x = f t)) = [] :=
        List.filter_eq_nil_iff.2 (fun y hy => by
          simp only [decide_eq_true_eq]
          intro he
          exact hnd.1 (by rw [← he]; exact List.mem_map_of_mem f hy))
      simp [this]
    · have hx : f x ≠ f t := fun he => hnd.1 (by rw [he]; exact List.mem_map_of_mem f hmem)
      simp [hx, ih hnd.2 hmem]

/-- C10: in a store where `tweet_id`, `like_id` and `reply_id` are unique keys, the
entries of `GET /user/tweets/` are, up to their order, exactly one entry per tweet
row of the user, showing the tweet's text and timestamp with the number of `like`
rows and the number of `reply` rows that carry its `tweet_id`. -/
theorem getOwnTweets_counts (s : Store) (userId : Nat)
    (ht : (s.tweet.map (fun t => t.tweet_id)).Nodup)
    (hl : (s.like.map (fun l => l.like_id)).Nodup)
    (hr : (s.reply.map (fun y => y.reply_id)).Nodup) :
    (getOwnTweets s userId).Perm
      ((s.tweet.filter (fun t => decide (t.user_id = userId))).map (ownEntry s)) := by
  have hown : ((s.tweet.filter (fun t => decide (t.user_id = userId))).map
      (fun t => t.tweet_id)).Nodup :=
    List.Nodup.sublist ((List.filter_sublist s.tweet).map _) ht
  have hkeys : (((ownRows s userId).map (fun r => r.1.1.tweet_id)).dedup).Perm
      ((s.tweet.filter (fun t => decide (t.user_id = userId))).map (fun t => t.tweet_id)) := by
    refine (List.perm_ext_iff_of_nodup (List.nodup_dedup _) hown).2 (fun k => ?_)
    rw [mem_ownKeys]
    simp only [List.mem_map, List.mem_filter, decide_eq_true_eq, and_assoc]
  rw [getOwnTweets_eq]
  refine (hkeys.filterMap _).trans ?_
  rw [List.filterMap_map]
  have hpoint : ∀ t ∈ s.tweet.filter (fun t => decide (t.user_id = userId)),
      ((fun k => ownAggregate (((s.tweet.filter (fun t => decide (t.user_id = userId))).filter
          (fun t => decide (t.tweet_id = k))).flatMap (ownBlock s))) ∘ fun t => t.tweet_id) t =
        (fun t => some (ownEntry s t)) t := by
    intro t htm
    simp only [Function.comp]
    rw [filter_key_eq_singleton (fun t : Tweet => t.tweet_id) _ t hown htm]
    simp only [List.flatMap_cons, List.flatMap_nil, List.append_nil]
    exact ownAggregate_ownBlock s t hl hr
  have hfun : (fun t => some (ownEntry s t)) = some ∘ ownEntry s := rfl
  rw [List.filterMap_congr hpoint, hfun, List.filterMap_eq_map]

/-- C10, at concrete inputs: Alice's tweet 3 has two likes and three replies, so it
fills six rows of the double join, and is shown with the counts 2 and 3; her tweet 4
has neither and is shown with 0 and 0. -/
theorem getOwnTweets_counts_witness :
    (ownRows busyStore 1).length = 7 ∧
    (getOwnTweets busyStore 1).Perm
      [⟨"mine", 2, 3, "2024-06-01 09:00:00"⟩, ⟨"quiet", 0, 0, "2024-07-01 09:00:00"⟩] :=
  ⟨by decide, getOwnTweets_counts busyStore 1 (by decide) (by decide) (by decide)⟩


/-! ## Proofs: creating and deleting tweets -/

/-- C9 (as stated, refuted): Alice deletes her tweet 1, which Bob had liked (the
`like` row stays, `DELETE` touches table `tweet` only), and posts `hello`, to which
the store gives the `tweet_id` 1 again (the key after the largest one in use).
`GET /user/tweets/` then shows `hello` with one like: no entry has `likes = 0`. -/
theorem createTweet_inherits_likes :
    (handle demoPrimitives (.deleteTweet (some "Bearer eyJ.alice1.sig") 1) likedStore).1 =
      ⟨200, .text "Tweet Removed"⟩ ∧
    (handle demoPrimitives
        (.createTweet (some "Bearer eyJ.alice1.sig") "hello" "2024-05-02 08:00:00" 1)
        (run demoPrimitives [.deleteTweet (some "Bearer eyJ.alice1.sig") 1] likedStore)).1 =
      ⟨200, .text "Created a Tweet"⟩ ∧
    (handle demoPrimitives (.ownTweets (some "Bearer eyJ.alice1.sig"))
        (run demoPrimitives
          [.deleteTweet (some "Bearer eyJ.alice1.sig") 1,
           .createTweet (some "Bearer eyJ.alice1.sig") "hello" "2024-05-02 08:00:00" 1]
          likedStore)).1 =
      ⟨200, .tweets [⟨"hello", 1, 0, "2024-05-02 08:00:00"⟩]⟩ := by
  decide

/-- C9 (amended): when the `tweet_id` the store gives the new row is carried by no
tweet row (it is a primary key), no `like` row and no `reply` row of the store,
`POST /user/tweets/` answers 200 and a following `GET /user/tweets/` of the same user
holds the entry with the posted text, `likes = 0`, `replies = 0` and the timestamp
stored at creation. -/
theorem createTweet_then_getOwnTweets (s : Store) (userId : Nat) (tweet now : String)
    (rowid : Nat)
    (hfresh : ∀ t ∈ s.tweet, t.tweet_id ≠ rowid)
    (hlike : ∀ l ∈ s.like, l.tweet_id ≠ rowid)
    (hreply : ∀ r ∈ s.reply, r.tweet_id ≠ rowid) :
    (createTweet s userId tweet now rowid).1 = ⟨200, .text "Created a Tweet"⟩ ∧
    (createTweet s userId tweet now rowid).2.tweet = s.tweet ++ [⟨rowid, tweet, userId, now⟩] ∧
    (⟨tweet, 0, 0, now⟩ : TweetStats) ∈ getOwnTweets (createTweet s userId tweet now rowid).2 userId := by
  refine ⟨rfl, rfl, ?_⟩
  rw [getOwnTweets_eq]
  refine List.mem_filterMap.2 ⟨rowid, ?_, ?_⟩
  · exact (mem_ownKeys _ userId rowid).2 ⟨⟨rowid, tweet, userId, now⟩, by simp [createTweet], rfl, rfl⟩
  · have hsel : ((createTweet s userId tweet now rowid).2.tweet.filter
          (fun t => decide (t.user_id = userId))).filter (fun t => decide (t.tweet_id = rowid)) =
        [⟨rowid, tweet, userId, now⟩] := by
      have h0 : (s.tweet.filter (fun t => decide (t.user_id = userId))).filter
          (fun t => decide (t.tweet_id = rowid)) = [] :=
        List.filter_eq_nil_iff.2 (fun t ht => by
          simpa using hfresh t (List.mem_of_mem_filter ht))
      simp [createTweet, List.filter_append, h0]
    have hl0 : s.like.filter (fun l => decide (rowid = l.tweet_id)) = [] :=
      List.filter_eq_nil_iff.2 (fun l hl => by
        simpa using fun h : rowid = l.tweet_id => hlike l hl h.symm)
    have hr0 : s.reply.filter (fun r => decide (rowid = r.tweet_id)) = [] :=
      List.filter_eq_nil_iff.2 (fun r hr => by
        simpa using fun h : rowid = r.tweet_id => hreply r hr h.symm)
    rw [hsel]
    simp [ownBlock, leftJoinRow, createTweet, hl0, hr0, ownAggregate, countDistinct]

/-- C9 (amended), at concrete inputs: Alice, freshly registered, posts `hello`. -/
theorem createTweet_then_getOwnTweets_witness :
    (⟨"hello", 0, 0, "2024-05-01 10:00:00"⟩ : TweetStats) ∈
      getOwnTweets (createTweet aliceStore 1 "hello" "2024-05-01 10:00:00" 1).2 1 :=
  (createTweet_then_getOwnTweets aliceStore 1 "hello" "2024-05-01 10:00:00" 1
    (by decide) (by decide) (by decide)).2.2

/-- C5: `DELETE /tweets/:tweetId/` answers 200 `Tweet Removed` exactly when a tweet row
with that `tweet_id` and the user as author exists; otherwise it answers
401 `Invalid Request` and leaves the store unchanged.  After a removal no tweet row
carries that `tweet_id`, the other tables and tweet rows are as before, and every
entry of a following `GET /user/tweets/` shows a tweet row of the user with another
`tweet_id`. -/
theorem deleteTweet_owner_only (s : Store) (userId tweetId : Nat) :
    ((deleteTweet s userId tweetId).1 = ⟨200, .text "Tweet Removed"⟩ ↔
      ∃ t ∈ s.tweet, t.tweet_id = tweetId ∧ t.user_id = userId) ∧
    ((¬ ∃ t ∈ s.tweet, t.tweet_id = tweetId ∧ t.user_id = userId) →
      deleteTweet s userId tweetId = (⟨401, .text "Invalid Request"⟩, s)) ∧
    ((∃ t ∈ s.tweet, t.tweet_id = tweetId ∧ t.user_id = userId) →
      (∀ t ∈ (deleteTweet s userId tweetId).2.tweet, t.tweet_id ≠ tweetId) ∧
      (∀ t, t ∈ (deleteTweet s userId tweetId).2.tweet ↔ t ∈ s.tweet ∧ t.tweet_id ≠ tweetId) ∧
      (∀ e ∈ getOwnTweets (deleteTweet s userId tweetId).2 userId,
        ∃ t ∈ s.tweet, t.tweet_id ≠ tweetId ∧ t.user_id = userId ∧
          e.tweet = t.tweet ∧ e.dateTime = t.date_time)) := by
  have hnone : (¬ ∃ t ∈ s.tweet, t.tweet_id = tweetId ∧ t.user_id = userId) →
      deleteTweet s userId tweetId = (⟨401, .text "Invalid Request"⟩, s) := by
    intro h
    have h0 : s.tweet.find? (fun t => decide (t.tweet_id = tweetId) && decide (t.user_id = userId))
        = none := by
      rw [List.find?_eq_none]
      intro t ht hp
      simp only [Bool.and_eq_true, decide_eq_true_eq] at hp
      exact h ⟨t, ht, hp⟩
    simp [deleteTweet, h0]
  have hsome : (∃ t ∈ s.tweet, t.tweet_id = tweetId ∧ t.user_id = userId) →
      deleteTweet s userId tweetId = (⟨200, .text "Tweet Removed"⟩,
        { s with tweet := s.tweet.filter (fun t => !decide (t.tweet_id = tweetId)) }) := by
    rintro ⟨t, ht, hp⟩
    cases h0 : s.tweet.find? (fun t => decide (t.tweet_id = tweetId) && decide (t.user_id = userId)) with
    | none =>
      rw [List.find?_eq_none] at h0
      exact absurd (by simp [hp]) (h0 t ht)
    | some _ => simp [deleteTweet, h0]
  refine ⟨⟨fun h => ?_, fun h => by rw [hsome h]⟩, hnone, fun h => ?_⟩
  · by_contra hn
    rw [hnone hn] at h
    simp at h
  · have hmem : ∀ t, t ∈ (deleteTweet s userId tweetId).2.tweet ↔
        t ∈ s.tweet ∧ t.tweet_id ≠ tweetId := by
      intro t
      rw [hsome h]
      simp [List.mem_filter]
    refine ⟨fun t ht => ((hmem t).1 ht).2, hmem, fun e he => ?_⟩
    obtain ⟨t, ht, hu, h1, h2⟩ := getOwnTweets_source _ userId e he
    exact ⟨t, ((hmem t).1 ht).1, ((hmem t).1 ht).2, hu, h1, h2⟩

/-- C5, at concrete inputs: Bob cannot delete Alice's tweet 1; Alice can, and her list
of tweets is empty afterwards. -/
theorem deleteTweet_owner_only_witness :
    deleteTweet likedStore 2 1 = (⟨401, .text "Invalid Request"⟩, likedStore) ∧
    (deleteTweet likedStore 1 1).1 = ⟨200, .text "Tweet Removed"⟩ ∧
    getOwnTweets (deleteTweet likedStore 1 1).2 1 = [] :=
  ⟨(deleteTweet_owner_only likedStore 2 1).2.1 (by decide),
    (deleteTweet_owner_only likedStore 1 1).1.2 (by decide), by decide⟩


/-! ## Proofs: the feed -/

theorem textLE_total (a b : List Char) : textLE a b = true ∨ textLE b a = true := by
  induction a generalizing b with
  | nil => exact Or.inl (by simp [textLE])
  | cons x xs ih =>
    cases b with
    | nil => exact Or.inr (by simp [textLE])
    | cons y ys =>
      simp only [textLE, Bool.or_eq_true, Bool.and_eq_true, decide_eq_true_eq]
      rcases Nat.lt_trichotomy x.toNat y.toNat with h | h | h
      · exact Or.inl (Or.inl h)
      · rcases ih ys with h2 | h2
        · exact Or.inl (Or.inr ⟨h, h2⟩)
        · exact Or.inr (Or.inr ⟨h.symm, h2⟩)
      · exact Or.inr (Or.inl h)

theorem textLE_trans (a b c : List Char) (hab : textLE a b = true) (hbc : textLE b c = true) :
    textLE a c = true := by
  induction a generalizing b c with
  | nil => simp [textLE]
  | cons x xs ih =>
    cases b with
    | nil => simp [textLE] at hab
    | cons y ys =>
      cases c with
      | nil => simp [textLE] at hbc
      | cons z zs =>
        simp only [textLE, Bool.or_eq_true, Bool.and_eq_true, decide_eq_true_eq] at hab hbc ⊢
        rcases hab with h1 | ⟨h1, h1t⟩ <;> rcases hbc with h2 | ⟨h2, h2t⟩
        · exact Or.inl (by omega)
        · exact Or.inl (by omega)
        · exact Or.inl (by omega)
        · exact Or.inr ⟨by omega, ih ys zs h1t h2t⟩

theorem mem_feedRows (s : Store) (userId : Nat) (x : (Follower × Tweet) × User) :
    x ∈ feedRows s userId ↔
      x.1.1 ∈ s.follower ∧ x.1.2 ∈ s.tweet ∧ x.2 ∈ s.user ∧
      x.1.1.following_user_id = x.1.2.user_id ∧ x.1.2.user_id = x.2.user_id ∧
      x.1.1.follower_user_id = userId := by
  obtain ⟨⟨f, t⟩, u⟩ := x
  simp only [feedRows, innerJoin, List.mem_filter, List.mem_flatMap, List.mem_map,
    decide_eq_true_eq, Prod.mk.injEq, Prod.exists]
  constructor
  · rintro ⟨⟨f1, t1, ⟨f2, hf2, t2, ⟨ht2, hft⟩, rfl, rfl⟩, u1, ⟨hu1, htu⟩, ⟨rfl, rfl⟩, rfl⟩, hid⟩
    exact ⟨hf2, ht2, hu1, hft, htu, hid⟩
  · rintro ⟨hf, ht, hu, hft, htu, hid⟩
    exact ⟨⟨f, t, ⟨f, hf, t, ⟨ht, hft⟩, rfl, rfl⟩, u, ⟨hu, htu⟩, ⟨rfl, rfl⟩, rfl⟩, hid⟩

theorem feedRows_sorted (s : Store) (userId : Nat) :
    ((feedRows s userId).insertionSort
      (fun a b => dateLE a.1.2.date_time b.1.2.date_time)).Pairwise
      (fun a b => dateLE a.1.2.date_time b.1.2.date_time) := by
  haveI : IsTotal ((Follower × Tweet) × User)
      (fun a b => dateLE a.1.2.date_time b.1.2.date_time) :=
    ⟨fun a b => textLE_total a.1.2.date_time.toList b.1.2.date_time.toList⟩
  haveI : IsTrans ((Follower × Tweet) × User)
      (fun a b => dateLE a.1.2.date_time b.1.2.date_time) :=
    ⟨fun a b c hab hbc =>
      textLE_trans a.1.2.date_time.toList b.1.2.date_time.toList c.1.2.date_time.toList hab hbc⟩
  exact List.sorted_insertionSort _ _

/-- Every entry of the feed shows a tweet row of a followed author, with the `username`
of a `user` row of that author. -/
theorem getFeed_source (s : Store) (userId : Nat) (r : FeedRow) (hr : r ∈ getFeed s userId) :
    ∃ t ∈ s.tweet, ∃ u ∈ s.user, follows s userId t.user_id ∧ u.user_id = t.user_id ∧
      r = ⟨u.username, t.tweet, t.date_time⟩ := by
  simp only [getFeed, List.mem_map] at hr
  obtain ⟨x, hx, rfl⟩ := hr
  have hx2 := (mem_feedRows s userId x).1
    ((List.perm_insertionSort _ _).mem_iff.1 (List.mem_of_mem_take hx))
  exact ⟨x.1.2, hx2.2.1, x.2, hx2.2.2.1,
    ⟨x.1.1, hx2.1, hx2.2.2.2.2.2, hx2.2.2.2.1⟩, hx2.2.2.2.2.1.symm, rfl⟩

/-- C4: in a store that respects the reference of `tweet.user_id` to `user`, the feed
is the first 4 rows, in ascending `date_time`, of the tweets of the authors the user
follows: it has at most 4 entries, is non-decreasing in `dateTime`, every entry is a
tweet of an author the user follows paired with that author's `username`, and every
tweet of a followed author with a `date_time` strictly earlier than that of a
returned entry is itself in the result. -/
theorem getFeed_first_four (s : Store) (userId : Nat) (hfk : fkTweetUser s) :
    (getFeed s userId).length ≤ 4 ∧
    (getFeed s userId).Pairwise (fun a b => dateLE a.dateTime b.dateTime) ∧
    (∀ r ∈ getFeed s userId, ∃ t ∈ s.tweet, ∃ u ∈ s.user,
      follows s userId t.user_id ∧ u.user_id = t.user_id ∧
      r = ⟨u.username, t.tweet, t.date_time⟩) ∧
    (∀ t ∈ s.tweet, follows s userId t.user_id →
      ∀ r ∈ getFeed s userId, ¬ dateLE r.dateTime t.date_time →
      ∃ u ∈ s.user, u.user_id = t.user_id ∧
        (⟨u.username, t.tweet, t.date_time⟩ : FeedRow) ∈ getFeed s userId) ∧
    (∃ sorted : List ((Follower × Tweet) × User),
      sorted.Perm (feedRows s userId) ∧
      sorted.Pairwise (fun a b => dateLE a.1.2.date_time b.1.2.date_time) ∧
      getFeed s userId =
        (sorted.take 4).map (fun x => ⟨x.2.username, x.1.2.tweet, x.1.2.date_time⟩)) := by
  have hsorted : ((feedRows s userId).insertionSort
      (fun a b => dateLE a.1.2.date_time b.1.2.date_time)).Pairwise
      (fun a b => dateLE a.1.2.date_time b.1.2.date_time) :=
    feedRows_sorted s userId
  have hperm := List.perm_insertionSort
    (fun a b : (Follower × Tweet) × User => dateLE a.1.2.date_time b.1.2.date_time)
    (feedRows s userId)
  refine ⟨?_, ?_, ?_, ?_, ⟨_, hperm, hsorted, rfl⟩⟩
  · simp only [getFeed, List.length_map]
    exact List.length_take_le _ _
  · simp only [getFeed]
    rw [List.pairwise_map]
    exact hsorted.sublist (List.take_sublist _ _)
  · exact getFeed_source s userId
  · rintro t ht ⟨f, hf, hfu, hft⟩ r hr hlt
    obtain ⟨u, hu, hut⟩ := hfk t ht
    refine ⟨u, hu, hut, ?_⟩
    have hx : ((f, t), u) ∈ (feedRows s userId).insertionSort
        (fun a b => dateLE a.1.2.date_time b.1.2.date_time) :=
      hperm.mem_iff.2 ((mem_feedRows s userId _).2 ⟨hf, ht, hu, hft, hut.symm, hfu⟩)
    rw [← List.take_append_drop 4 ((feedRows s userId).insertionSort
        (fun a b => dateLE a.1.2.date_time b.1.2.date_time))] at hx hsorted
    simp only [getFeed, List.mem_map] at hr ⊢
    rcases List.mem_append.1 hx with h | h
    · exact ⟨_, h, rfl⟩
    · obtain ⟨y, hy, rfl⟩ := hr
      exact absurd ((List.pairwise_append.1 hsorted).2.2 y hy _ h) hlt

/-- C4, at concrete inputs: Alice follows Bob and Carol, whose tweets `old` and `new` make
up her feed, oldest first. -/
theorem getFeed_first_four_witness :
    fkTweetUser busyStore ∧
    getFeed busyStore 1 =
      [⟨"bob2", "old", "2024-01-01 09:00:00"⟩, ⟨"carol3", "new", "2024-06-01 09:00:00"⟩] ∧
    (getFeed busyStore 1).length ≤ 4 :=
  ⟨by decide, by decide, (getFeed_first_four busyStore 1 (by decide)).1⟩

/-- The three handlers that write keep the reference of `tweet.user_id` to `user`:
registration only adds a user row, a deletion only removes tweet rows, and a new tweet
is attributed to the user of the request, who has a user row. -/
theorem fkTweetUser_preserved (s : Store) (hfk : fkTweetUser s) :
    (∀ (p : Primitives) (username password name gender : String) (rowid : Nat),
      fkTweetUser (register p username password name gender rowid s).2) ∧
    (∀ (userId : Nat) (tweet now : String) (rowid : Nat),
      (∃ u ∈ s.user, u.user_id = userId) →
      fkTweetUser (createTweet s userId tweet now rowid).2) ∧
    (∀ userId tweetId : Nat, fkTweetUser (deleteTweet s userId tweetId).2) := by
  refine ⟨?_, ?_, ?_⟩
  · intro p username password name gender rowid t ht
    simp only [register] at ht ⊢
    cases hf : findByUsername s username with
    | some _ =>
      rw [hf] at ht
      exact hfk t ht
    | none =>
      rw [hf] at ht
      by_cases hl : utf16Length password < 6
      · simp only [hl, if_true] at ht ⊢
        exact hfk t ht
      · simp only [hl, if_false] at ht ⊢
        obtain ⟨u, hu, hut⟩ := hfk t ht
        exact ⟨u, List.mem_append_left _ hu, hut⟩
  · rintro userId tweet now rowid ⟨u, hu, huid⟩ t ht
    simp only [createTweet, List.mem_append, List.mem_singleton] at ht
    rcases ht with ht | rfl
    · exact hfk t ht
    · exact ⟨u, hu, huid⟩
  · intro userId tweetId t ht
    simp only [deleteTweet] at ht ⊢
    cases hf : s.tweet.find?
        (fun t => decide (t.tweet_id = tweetId) && decide (t.user_id = userId)) with
    | none =>
      rw [hf] at ht
      exact hfk t ht
    | some _ =>
      rw [hf] at ht
      exact hfk t (List.mem_of_mem_filter ht)

/-- The reference is kept when Alice, who has a user row, posts a second tweet. -/
theorem fkTweetUser_preserved_witness :
    fkTweetUser (createTweet soloStore 1 "again" "2024-05-02 08:00:00" 2).2 :=
  (fkTweetUser_preserved soloStore (by decide)).2.1 1 "again" "2024-05-02 08:00:00" 2
    (by decide)

/-- C3 (as stated, refuted): `GET /user/tweets/` returns Alice her own tweet `hello`,
and Alice does not follow its author, herself. -/
theorem getOwnTweets_shows_unfollowed_author :
    getOwnTweets soloStore 1 = [⟨"hello", 0, 0, "2024-05-01 10:00:00"⟩] ∧
    soloStore.tweet = [⟨1, "hello", 1, "2024-05-01 10:00:00"⟩] ∧
    ¬ follows soloStore 1 1 := by
  decide

/-- C3 (amended): every tweet shown by the feed or by `GET /tweets/:tweetId/` is a
tweet row whose author the viewer follows, and the likes and replies of a tweet are
listed only when a tweet row with that `tweet_id` has an author the viewer follows;
every tweet shown by `GET /user/tweets/` is a tweet row of the viewer. -/
theorem read_visibility (s : Store) (viewer : Nat) :
    (∀ r ∈ getFeed s viewer, ∃ t ∈ s.tweet,
      follows s viewer t.user_id ∧ r.tweet = t.tweet ∧ r.dateTime = t.date_time) ∧
    (∀ (tweetId : Nat) (row : TweetStats),
      (getTweetDetail s viewer tweetId).body = .tweet row →
      ∃ t ∈ s.tweet, t.tweet_id = tweetId ∧ follows s viewer t.user_id ∧
        row.tweet = t.tweet ∧ row.dateTime = t.date_time) ∧
    (∀ tweetId : Nat, (getTweetLikes s viewer tweetId).status = 200 →
      ∃ t ∈ s.tweet, t.tweet_id = tweetId ∧ follows s viewer t.user_id) ∧
    (∀ tweetId : Nat, (getTweetReplies s viewer tweetId).status = 200 →
      ∃ t ∈ s.tweet, t.tweet_id = tweetId ∧ follows s viewer t.user_id) ∧
    (∀ e ∈ getOwnTweets s viewer, ∃ t ∈ s.tweet,
      t.user_id = viewer ∧ e.tweet = t.tweet ∧ e.dateTime = t.date_time) := by
  refine ⟨?_, ?_, ?_, ?_, getOwnTweets_source s viewer⟩
  · intro r hr
    obtain ⟨t, ht, u, _, hf, _, rfl⟩ := getFeed_source s viewer r hr
    exact ⟨t, ht, hf, rfl, rfl⟩
  · intro tweetId row h
    cases h0 : reachableTweet s viewer tweetId with
    | none => simp [getTweetDetail, h0] at h
    | some t =>
      obtain ⟨ht, hid, hf⟩ := reachableTweet_some s viewer tweetId t h0
      simp only [getTweetDetail, h0, Body.tweet.injEq] at h
      exact ⟨t, ht, hid, hf, by rw [← h], by rw [← h]⟩
  · intro tweetId h
    cases h0 : reachableTweet s viewer tweetId with
    | none => simp [getTweetLikes, h0] at h
    | some t =>
      obtain ⟨ht, hid, hf⟩ := reachableTweet_some s viewer tweetId t h0
      exact ⟨t, ht, hid, hf⟩
  · intro tweetId h
    cases h0 : reachableTweet s viewer tweetId with
    | none => simp [getTweetReplies, h0] at h
    | some t =>
      obtain ⟨ht, hid, hf⟩ := reachableTweet_some s viewer tweetId t h0
      exact ⟨t, ht, hid, hf⟩

end TwitterClone
